import Mathlib

/-!
Verification of the BMV-600S battery-monitor stream parsers.

This file embeds, in Lean, the two parser implementations of the repository:

* `StreamParser` from `src/bmv600s.py` (blocks decoded into an
  insertion-ordered dict of raw code/value strings), and
* `BlockReader` / `MonitorData` from `src/bmvd/bmv600s.py` (blocks decoded
  into a typed record, with Python exception behaviour made explicit via
  `Except`).

Byte buffers are `List Nat` (each element one byte value), strings are
Lean `String`, and Python `None` is `Option.none`.  Both parsers share the
same framing code (label search, completeness check, byte-sum checksum,
unconditional removal of the candidate block), embedded once as `frame`.
-/

namespace Bmvd

/-- Bytes of the ASCII literal `"Checksum"`, the `_CHECKSUM_LABEL` constant of
both `StreamParser` (src/bmv600s.py) and `BlockReader` (src/bmvd/bmv600s.py). -/
def checksumLabel : List Nat := [67, 104, 101, 99, 107, 115, 117, 109]

/-- `occ b p` says the checksum label occurs in buffer `b` at position `p`
(the eight bytes starting at `p` are exactly the label). -/
def occ (b : List Nat) (p : Nat) : Prop := (b.drop p).take 8 = checksumLabel

instance (b : List Nat) (p : Nat) : Decidable (occ b p) := by
  unfold occ; infer_instance

/-- `bytearray.find(_CHECKSUM_LABEL)`: index of the first occurrence of the
label in the buffer, `none` for Python's `-1`. -/
def findLabel : List Nat → Option Nat
  | [] => none
  | x :: t =>
      if ((x :: t).take 8 = checksumLabel) then some 0
      else (findLabel t).map (· + 1)

/-- `bytes.splitlines()`: split on `\r\n`, `\r` or `\n`, terminators not kept,
no trailing empty line for a trailing terminator. -/
def splitlines : List Nat → List (List Nat)
  | [] => []
  | 13 :: 10 :: t => [] :: splitlines t
  | 13 :: t => [] :: splitlines t
  | 10 :: t => [] :: splitlines t
  | c :: t =>
      match splitlines t with
      | [] => [[c]]
      | l :: ls => (c :: l) :: ls

/-- The Unicode replacement character U+FFFD. -/
def replacementChar : Char := Char.ofNat 0xFFFD

/-- `line.decode("ascii", "replace")`: bytes below 128 decode to themselves,
anything else becomes the replacement character. -/
def decodeAscii (l : List Nat) : String :=
  String.mk (l.map (fun b => if b < 128 then Char.ofNat b else replacementChar))

/-- Result of one framing attempt on the buffer. -/
inductive FrameRes where
  | need
  | bad (rest : List Nat)
  | good (body rest : List Nat)
deriving DecidableEq

/-- The framing part shared verbatim by `StreamParser._extract_block` and
`BlockReader._extract_block`: find the label; the candidate block runs from
the start of the buffer through the label plus one tab byte and one checksum
byte (`blocklen = pos + len(label) + 2`); if the buffer is shorter, more data
is needed; otherwise the candidate block is removed from the buffer and is
valid iff the sum of its actual bytes is 0 mod 256.  On success the returned
body is the candidate block with the checksum part `[pos:blocklen]` deleted,
i.e. the first `pos` bytes of the buffer. -/
def frame (buf : List Nat) : FrameRes :=
  match findLabel buf with
  | none => .need
  | some pos =>
      if buf.length < pos + 8 + 2 then .need
      else if (buf.take (pos + 8 + 2)).sum % 256 = 0 then
        .good (buf.take pos) (buf.drop (pos + 8 + 2))
      else .bad (buf.drop (pos + 8 + 2))

/-- `_check_discard_buffer(maxsize=1024)`, identical in both parsers: once the
buffer has reached `maxsize` bytes, drop the oldest `maxsize` bytes. -/
def checkDiscard (buf : List Nat) : List Nat :=
  if 1024 ≤ buf.length then buf.drop 1024 else buf

/-! ## StreamParser (src/bmv600s.py) -/

/-- A decoded block of `StreamParser`: a Python dict from code to raw value,
modelled as an insertion-ordered association list. -/
abbrev Block := List (String × String)

/-- Python dict assignment `block[k] = v`: overwrite in place if the key is
present (keeping its position), else append. -/
def dictInsert (k v : String) : Block → Block
  | [] => [(k, v)]
  | (k0, v0) :: t => if k0 = k then (k, v) :: t else (k0, v0) :: dictInsert k v t

/-- Python `str.split('\t')` carried out on the raw line bytes: split on
every tab byte, keeping empty parts.  The source decodes the line first and
then splits on the tab character; since the ASCII-replace decode maps byte 9
to the tab character and no other byte to it, splitting the bytes first and
decoding each part afterwards is the same function. -/
def splitTab : List Nat → List (List Nat)
  | [] => [[]]
  | 9 :: t => [] :: splitTab t
  | c :: t =>
      match splitTab t with
      | [] => [[c]]
      | l :: ls => (c :: l) :: ls

/-- `StreamParser._parse_line`: split on tab; only lines with exactly two
parts are stored into the dict. -/
def parseLineSP (line : List Nat) (block : Block) : Block :=
  match splitTab line with
  | [k, v] => dictInsert (decodeAscii k) (decodeAscii v) block
  | _ => block

/-- One step of the line loop of `StreamParser._extract_block`: parse the
line unless its decoded text is empty (the text is empty exactly when the
line has no bytes). -/
def stepSP (blk : Block) (line : List Nat) : Block :=
  if line = [] then blk else parseLineSP line blk

/-- The line-splitting and parsing part of `StreamParser._extract_block`:
split the body into lines and accumulate them into a fresh dict. -/
def parseBlockSP (body : List Nat) : Block :=
  (splitlines body).foldl stepSP []

/-- The extraction loop of `StreamParser.process` with an explicit fuel
argument (a device to keep the recursion structural and hence executable by
kernel reduction; every extracted block removes at least ten bytes from the
buffer, so `buf.length + 1` fuel always suffices and the fuel amount is
irrelevant, see `processLoopSPF_irrel`): extract blocks while truthy.  The
loop body is `block = self._extract_block(); if block: result.append(block)
else: self._check_discard_buffer(); break`, and `if block:` tests Python
truthiness of the returned dict: `None` (no label, incomplete block, or
failed checksum) and the EMPTY dict are both falsy.  So a checksum-valid
block whose parsed dict is empty has already been deleted from the buffer
by `_extract_block`, but is not appended to the result, and the loop runs
`_check_discard_buffer` on the remaining buffer and stops. -/
def processLoopSPF : Nat → List Nat → List Block × List Nat
  | 0, buf => ([], buf)
  | fuel + 1, buf =>
      match frame buf with
      | .good body rest =>
          let blk := parseBlockSP body
          if blk = [] then ([], checkDiscard rest)
          else
            let r := processLoopSPF fuel rest
            (blk :: r.1, r.2)
      | .need => ([], checkDiscard buf)
      | .bad rest => ([], checkDiscard rest)

/-- The extraction loop of `StreamParser.process`, with enough fuel. -/
def processLoopSP (buf : List Nat) : List Block × List Nat :=
  processLoopSPF (buf.length + 1) buf

/-- `StreamParser.process`: `None` on empty input; otherwise append the data
to the buffer and run the extraction loop, returning the (possibly empty)
list of extracted blocks.  The second component is `self._buffer` after the
call. -/
def processSP (data buf : List Nat) : Option (List Block) × List Nat :=
  if data = [] then (none, buf)
  else
    let r := processLoopSP (buf ++ data)
    (some r.1, r.2)

/-- Feed a sequence of chunks through `StreamParser.process`, concatenating
the per-call block lists (a `None` return contributes nothing, as both
guarded callers `load_data_file` and `read_serial` behave). -/
def feedAllSP : List (List Nat) → List Nat → List Block × List Nat
  | [], buf => ([], buf)
  | c :: cs, buf =>
      let r := processSP c buf
      let r2 := feedAllSP cs r.2
      ((r.1.getD []) ++ r2.1, r2.2)

/-- The decoded form of a whole candidate block: parse everything before the
10-byte checksum part (label, tab and checksum byte). -/
def parsedOf (B : List Nat) : Block := parseBlockSP (B.take (B.length - 10))

/-- A well-formed wire block: some body followed by the checksum label, a tab
and a checksum byte, whose first label occurrence is the terminator, whose
actual byte sum is 0 mod 256, which fits the discard bound, and whose body
decodes to a non-empty dict (so that the `if block:` truthiness test in
`StreamParser.process` appends it and continues the loop). -/
def GoodBlockP (B : List Nat) : Prop :=
  ∃ body ck, B = body ++ checksumLabel ++ [9, ck] ∧
    findLabel B = some body.length ∧
    B.sum % 256 = 0 ∧ B.length ≤ 1024 ∧
    parseBlockSP body ≠ []

/-! ## BlockReader and MonitorData (src/bmvd/bmv600s.py)

Python exceptions are made explicit: a computation that can raise returns
`Except PyErr`, where `.error e` means the exception `e` escapes. -/

/-- The Python exceptions relevant to this module. -/
inductive PyErr where
  | valueError
  | keyError
  | typeError
deriving DecidableEq

instance {ε α : Type} [DecidableEq ε] [DecidableEq α] : DecidableEq (Except ε α) := fun x y =>
  match x, y with
  | .ok a, .ok b =>
      if h : a = b then .isTrue (by rw [h]) else .isFalse (fun hc => h (Except.ok.inj hc))
  | .error a, .error b =>
      if h : a = b then .isTrue (by rw [h]) else .isFalse (fun hc => h (Except.error.inj hc))
  | .ok _, .error _ => .isFalse (fun hc => Except.noConfusion hc)
  | .error _, .ok _ => .isFalse (fun hc => Except.noConfusion hc)

/-- Decimal digit run: `some` of the value if the characters are one or more
decimal digits, else `none`. -/
def digitsVal : List Char → Option Nat
  | [] => none
  | l =>
      if l.all (fun c => c.isDigit) then
        some (l.foldl (fun acc c => acc * 10 + (c.toNat - 48)) 0)
      else none

/-- Python `int(s)` on the value strings this protocol produces: an optional
sign followed by one or more decimal digits; anything else raises
`ValueError` (modelled as `none`). -/
def pyInt : String → Option Int
  | s =>
      match s.data with
      | '-' :: ds => (digitsVal ds).map (fun n => -(n : Int))
      | '+' :: ds => (digitsVal ds).map (fun n => (n : Int))
      | ds => (digitsVal ds).map (fun n => (n : Int))

/-- `MonitorData.value_as_int`: `int(value) if value else 0`; a non-numeric
non-empty value raises `ValueError`. -/
def value_as_int (value : String) : Except PyErr Int :=
  if value = "" then .ok 0
  else
    match pyInt value with
    | some n => .ok n
    | none => .error .valueError

/-- `MonitorData.value_as_bool`: true exactly for the raw text `"On"`. -/
def value_as_bool (value : String) : Bool := value = "On"

/-- The members of the `AlarmReason` IntFlag in definition order, paired with
their `.name`. -/
def alarmMembers : List (Int × String) :=
  [(0, "NONE"), (1, "LOW_VOLTAGE"), (2, "HIGH_VOLTAGE"), (4, "LOW_STATE_OF_CHARGE")]

/-- `MonitorData.value_as_alarm_str`: parse the value as an int bitmask, keep
the names of the members with a set bit (in definition order, which is
ascending bit order) joined by `"|"`; an empty list of names, a zero value or
an absent value all yield `AlarmReason.NONE.name`, i.e. `"NONE"`. -/
def value_as_alarm_str (value : String) : Except PyErr String :=
  if value = "" then .ok "NONE"
  else
    match pyInt value with
    | none => .error .valueError
    | some v =>
        let alarms := (alarmMembers.filter (fun m => Int.land v m.1 != 0)).map (fun m => m.2)
        if alarms = [] then .ok "NONE" else .ok (String.intercalate "|" alarms)

/-- The `MonitorData` dataclass: every field has a defined default. -/
structure MonitorData where
  voltage : Int := 0
  current : Int := 0
  consumed_energy : Int := 0
  state_of_charge : Int := 0
  time_to_go : Int := 0
  alarm : Bool := false
  relay : Bool := false
  alarm_reason : String := ""
  model_name : String := ""
  firmware_version : String := ""
  deepest_discharge : Int := 0
  last_discharge : Int := 0
  average_discharge : Int := 0
  num_charge_cycles : Int := 0
  num_full_discharges : Int := 0
  total_consumed : Int := 0
  min_battery_voltage : Int := 0
  max_battery_voltage : Int := 0
  days_since_last_full_charge : Int := 0
  num_auto_syncs : Int := 0
  num_low_voltage_alarms : Int := 0
  num_high_voltage_alarms : Int := 0
deriving DecidableEq

/-- `MonitorData.set_value`: dispatch on the field key; an unsupported key
raises `KeyError`, a bad numeric value raises `ValueError` from the
conversion helpers. -/
def MonitorData.set_value (d : MonitorData) (key value : String) : Except PyErr MonitorData :=
  if key = "V" then (value_as_int value).map (fun n => { d with voltage := n })
  else if key = "I" then (value_as_int value).map (fun n => { d with current := n })
  else if key = "CE" then (value_as_int value).map (fun n => { d with consumed_energy := n })
  else if key = "SOC" then (value_as_int value).map (fun n => { d with state_of_charge := n })
  else if key = "TTG" then (value_as_int value).map (fun n => { d with time_to_go := n })
  else if key = "Alarm" then .ok { d with alarm := value_as_bool value }
  else if key = "Relay" then .ok { d with relay := value_as_bool value }
  else if key = "AR" then (value_as_alarm_str value).map (fun s => { d with alarm_reason := s })
  else if key = "BMV" then .ok { d with model_name := value }
  else if key = "FW" then .ok { d with firmware_version := value }
  else if key = "H1" then (value_as_int value).map (fun n => { d with deepest_discharge := n })
  else if key = "H2" then (value_as_int value).map (fun n => { d with last_discharge := n })
  else if key = "H3" then (value_as_int value).map (fun n => { d with average_discharge := n })
  else if key = "H4" then (value_as_int value).map (fun n => { d with num_charge_cycles := n })
  else if key = "H5" then (value_as_int value).map (fun n => { d with num_full_discharges := n })
  else if key = "H6" then (value_as_int value).map (fun n => { d with total_consumed := n })
  else if key = "H7" then (value_as_int value).map (fun n => { d with min_battery_voltage := n })
  else if key = "H8" then (value_as_int value).map (fun n => { d with max_battery_voltage := n })
  else if key = "H9" then (value_as_int value).map (fun n => { d with days_since_last_full_charge := n })
  else if key = "H10" then (value_as_int value).map (fun n => { d with num_auto_syncs := n })
  else if key = "H11" then (value_as_int value).map (fun n => { d with num_low_voltage_alarms := n })
  else if key = "H12" then (value_as_int value).map (fun n => { d with num_high_voltage_alarms := n })
  else .error .keyError

/-- `BlockReader._parse_line_ex`: skip empty lines; split on tab (on the raw
bytes, see `splitTab`); for a two-part line call `set_value`, catching only
`KeyError` (which is merely printed); any other exception — in particular
`ValueError` — escapes. -/
def parseLineEx (d : MonitorData) (line : List Nat) : Except PyErr MonitorData :=
  if line = [] then .ok d
  else
    match splitTab line with
    | [k, v] =>
        match d.set_value (decodeAscii k) (decodeAscii v) with
        | .ok d2 => .ok d2
        | .error .keyError => .ok d
        | .error e => .error e
    | _ => .ok d

/-- The line loop of `BlockReader._extract_block`: feed each line to
`_parse_line_ex`, mutating the single `self._values` record. -/
def parseBlockBR (d : MonitorData) (body : List Nat) : Except PyErr MonitorData :=
  (splitlines body).foldlM parseLineEx d

/-- The mutable state of a `BlockReader`: `self._buffer` and `self._values`.
`self._values` is created once in `__init__` and reused for every block. -/
structure BRState where
  buffer : List Nat
  values : MonitorData
deriving DecidableEq

/-- The state of a freshly constructed `BlockReader`. -/
def initBR : BRState := ⟨[], {}⟩

/-- The extraction loop of `BlockReader.read` with explicit fuel (same fuel
device as `processLoopSPF`; `st.buffer.length + 1` fuel always suffices),
counting extracted blocks; a failed checksum or a missing or incomplete
block runs `_check_discard_buffer` and stops; a decode exception escapes the
whole call. -/
def readLoopF : Nat → BRState → Except PyErr (Nat × BRState)
  | 0, st => .ok (0, st)
  | fuel + 1, st =>
      match frame st.buffer with
      | .good body rest =>
          match parseBlockBR st.values body with
          | .ok v => (readLoopF fuel ⟨rest, v⟩).map (fun r => (r.1 + 1, r.2))
          | .error e => .error e
      | .need => .ok (0, ⟨checkDiscard st.buffer, st.values⟩)
      | .bad rest => .ok (0, ⟨checkDiscard rest, st.values⟩)

/-- The extraction loop of `BlockReader.read`, with enough fuel. -/
def readLoop (st : BRState) : Except PyErr (Nat × BRState) :=
  readLoopF (st.buffer.length + 1) st

/-- `BlockReader.read`: a no-op returning 0 on empty data, else extend the
buffer and run the extraction loop. -/
def readB (data : List Nat) (st : BRState) : Except PyErr (Nat × BRState) :=
  if data = [] then .ok (0, st)
  else readLoop ⟨st.buffer ++ data, st.values⟩

/-! ## SerialReaderThread (src/bmvd/bmv600s.py) -/

/-- `SerialReaderThread.__init__` sets `self._data = MonitorData()`: the
published snapshot before any block is a default-constructed record. -/
def serialThreadInitData : MonitorData := {}

/-- The two relevant values for the `_lock` attribute: the `threading.Lock`
factory function itself, or a lock object obtained by calling it. -/
inductive LockAttr where
  | factory
  | lockObject
deriving DecidableEq

/-- `SerialReaderThread.__init__` executes `self._lock = threading.Lock`:
the factory function itself is stored (the call parentheses are missing), not
a lock instance. -/
def serialThreadLock : LockAttr := .factory

/-- Entering `with x:` for the `_lock` attribute: a lock object supports the
context manager protocol; the `threading.Lock` factory function does not, so
`with` raises `TypeError` before the body runs. -/
def withEnter : LockAttr → Except PyErr Unit
  | .factory => .error .typeError
  | .lockObject => .ok ()

/-- `SerialReaderThread.copy_current_data`: `with self._lock:` then return
`dataclasses.replace(self._data)`, a field-for-field copy of the stored
record.  The copy is reached only if entering the `with` block succeeds. -/
def copy_current_data (lock : LockAttr) (d : MonitorData) : Except PyErr MonitorData :=
  (withEnter lock).map fun _ =>
  { voltage := d.voltage
    current := d.current
    consumed_energy := d.consumed_energy
    state_of_charge := d.state_of_charge
    time_to_go := d.time_to_go
    alarm := d.alarm
    relay := d.relay
    alarm_reason := d.alarm_reason
    model_name := d.model_name
    firmware_version := d.firmware_version
    deepest_discharge := d.deepest_discharge
    last_discharge := d.last_discharge
    average_discharge := d.average_discharge
    num_charge_cycles := d.num_charge_cycles
    num_full_discharges := d.num_full_discharges
    total_consumed := d.total_consumed
    min_battery_voltage := d.min_battery_voltage
    max_battery_voltage := d.max_battery_voltage
    days_since_last_full_charge := d.days_since_last_full_charge
    num_auto_syncs := d.num_auto_syncs
    num_low_voltage_alarms := d.num_low_voltage_alarms
    num_high_voltage_alarms := d.num_high_voltage_alarms }

/-! ## The checksum rule as the spec words it -/

/-- Modelled from the spec: the spec's checksum rule, under which each
newline-delimited line of the candidate block contributes its stripped
content bytes plus two virtual bytes 0x0D and 0x0A standing in for the line
terminator, regardless of the terminator bytes actually present. -/
def specVirtualChecksum (b : List Nat) : Nat :=
  ((splitlines b).map (fun l => l.sum + 13 + 10)).sum

/-! ## Auxiliary predicates and concrete inputs used by the analysis -/

/-- The residue invariant of the extraction loop on a well-formed stream:
the buffer holds a strict prefix of the next expected block, or nothing when
the stream is exhausted. -/
def PartialNext (r : List Nat) : List (List Nat) → Prop
  | [] => r = []
  | B :: _ => ∃ m, m < B.length ∧ r = B.take m

/-- Boolean guard: the line does not parse to a two-part line whose key
decodes to `code`. -/
def lineKeyIsNot (code : String) (l : List Nat) : Bool :=
  match splitTab l with
  | [k, _] => decodeAscii k != code
  | _ => true

/-- Body of an oversized (1025-byte) block: the single CRLF-terminated line
`V<tab>11...1` (1011 character-`1` bytes), which decodes to the non-empty
dict with the one entry `V`. -/
def cexBigBody : List Nat := [86, 9] ++ List.replicate 1011 49 ++ [13, 10]

/-- An oversized but checksum-valid block of 1025 bytes
(86 + 9 + 1011 * 49 + 13 + 10 + 819 + 9 + 203 = 50688 = 198 * 256). -/
def cexBig : List Nat := cexBigBody ++ checksumLabel ++ [9, 203]

/-- Body of a small block: the CRLF-terminated line `I<tab>3`. -/
def cexSmallBody : List Nat := [73, 9, 51, 13, 10]

/-- A small checksum-valid block (156 + 819 + 9 + 40 = 1024). -/
def cexSmall : List Nat := cexSmallBody ++ checksumLabel ++ [9, 40]

/-- A valid two-block stream whose first block is 1025 bytes long. -/
def cexStream : List Nat := cexBig ++ cexSmall

/-- The first 1024 bytes of `cexStream`. -/
def cexChunkA : List Nat := cexBigBody ++ checksumLabel ++ [9]

/-- The remaining bytes of `cexStream` after `cexChunkA`. -/
def cexChunkB : List Nat := 203 :: (cexSmallBody ++ checksumLabel ++ [9, 40])

/-! ## Properties of the framing layer -/

theorem frame_good_rest_length {buf body rest : List Nat}
    (h : frame buf = .good body rest) : rest.length < buf.length := by
  unfold frame at h
  split at h
  · exact absurd h (by simp)
  · rename_i pos hf
    split at h
    · exact absurd h (by simp)
    · rename_i hlen
      split at h
      · cases h
        rw [List.length_drop]
        omega
      · exact absurd h (by simp)

theorem processLoopSPF_irrel : ∀ (f1 f2 : Nat) (buf : List Nat),
    buf.length < f1 → buf.length < f2 → processLoopSPF f1 buf = processLoopSPF f2 buf := by
  intro f1
  induction f1 with
  | zero => intro f2 buf h1 _; omega
  | succ f ih =>
      intro f2 buf h1 h2
      cases f2 with
      | zero => omega
      | succ g =>
          show processLoopSPF (f + 1) buf = processLoopSPF (g + 1) buf
          unfold processLoopSPF
          rcases hf : frame buf with _ | rest | ⟨body, rest⟩
          · rfl
          · rfl
          · have hlt := frame_good_rest_length hf
            by_cases hb : parseBlockSP body = []
            · simp only [hb, if_pos True.intro]
            · simp only [if_neg hb, ih g rest (by omega) (by omega)]

theorem processLoopSP_good {buf body rest : List Nat}
    (h : frame buf = .good body rest) (hb : parseBlockSP body ≠ []) :
    processLoopSP buf =
      (parseBlockSP body :: (processLoopSP rest).1, (processLoopSP rest).2) := by
  have hlt := frame_good_rest_length h
  conv_lhs => unfold processLoopSP processLoopSPF
  rw [h]
  simp only [if_neg hb,
    processLoopSPF_irrel buf.length (rest.length + 1) rest (by omega) (by omega)]
  rfl

theorem processLoopSP_good_empty {buf body rest : List Nat}
    (h : frame buf = .good body rest) (hb : parseBlockSP body = []) :
    processLoopSP buf = ([], checkDiscard rest) := by
  conv_lhs => unfold processLoopSP processLoopSPF
  rw [h]
  simp only [hb, if_pos True.intro]

theorem processLoopSP_need {buf : List Nat} (h : frame buf = .need) :
    processLoopSP buf = ([], checkDiscard buf) := by
  unfold processLoopSP processLoopSPF
  rw [h]

theorem processLoopSP_bad {buf rest : List Nat} (h : frame buf = .bad rest) :
    processLoopSP buf = ([], checkDiscard rest) := by
  unfold processLoopSP processLoopSPF
  rw [h]

theorem readLoopF_irrel : ∀ (f1 f2 : Nat) (st : BRState),
    st.buffer.length < f1 → st.buffer.length < f2 →
    readLoopF f1 st = readLoopF f2 st := by
  intro f1
  induction f1 with
  | zero => intro f2 st h1 _; omega
  | succ f ih =>
      intro f2 st h1 h2
      cases f2 with
      | zero => omega
      | succ g =>
          show readLoopF (f + 1) st = readLoopF (g + 1) st
          unfold readLoopF
          rcases hf : frame st.buffer with _ | rest | ⟨body, rest⟩
          · rfl
          · rfl
          · have hlt := frame_good_rest_length hf
            rcases hp : parseBlockBR st.values body with e | v
            · simp only [hp]
            · simp only [hp, ih g ⟨rest, v⟩ (by show rest.length < f; omega)
                (by show rest.length < g; omega)]

theorem readLoop_good {bf body rest : List Nat} {d v : MonitorData}
    (h : frame bf = .good body rest)
    (hp : parseBlockBR d body = .ok v) :
    readLoop ⟨bf, d⟩ = (readLoop ⟨rest, v⟩).map (fun r => (r.1 + 1, r.2)) := by
  have hlt := frame_good_rest_length h
  conv_lhs => unfold readLoop readLoopF
  simp only [h, hp]
  simp only [readLoopF_irrel bf.length (rest.length + 1) ⟨rest, v⟩
    (by show rest.length < _; omega) (by show rest.length < _; omega)]
  rfl

theorem readLoop_err {bf body rest : List Nat} {d : MonitorData} {e : PyErr}
    (h : frame bf = .good body rest)
    (hp : parseBlockBR d body = .error e) :
    readLoop ⟨bf, d⟩ = .error e := by
  conv_lhs => unfold readLoop readLoopF
  simp only [h, hp]

theorem readLoop_need {bf : List Nat} {d : MonitorData} (h : frame bf = .need) :
    readLoop ⟨bf, d⟩ = .ok (0, ⟨checkDiscard bf, d⟩) := by
  conv_lhs => unfold readLoop readLoopF
  simp only [h]

theorem readLoop_bad {bf rest : List Nat} {d : MonitorData}
    (h : frame bf = .bad rest) :
    readLoop ⟨bf, d⟩ = .ok (0, ⟨checkDiscard rest, d⟩) := by
  conv_lhs => unfold readLoop readLoopF
  simp only [h]

/-! ## The label search -/

theorem occ_length {b : List Nat} {p : Nat} (h : occ b p) : p + 8 ≤ b.length := by
  have hlen := congrArg List.length h
  rw [List.length_take, List.length_drop] at hlen
  rw [checksumLabel] at hlen
  simp only [List.length_cons, List.length_nil] at hlen
  omega

theorem occ_cons_succ {x : Nat} {t : List Nat} {p : Nat} :
    occ (x :: t) (p + 1) ↔ occ t p := by
  unfold occ
  rw [List.drop_succ_cons]

theorem findLabel_eq_some_iff {b : List Nat} {p : Nat} :
    findLabel b = some p ↔ (occ b p ∧ ∀ q, q < p → ¬ occ b q) := by
  induction b generalizing p with
  | nil =>
      simp only [findLabel]
      constructor
      · intro h; cases h
      · rintro ⟨hocc, -⟩
        have := occ_length hocc
        simp at this
  | cons x t ih =>
      unfold findLabel
      by_cases h : (x :: t).take 8 = checksumLabel
      · rw [if_pos h]
        constructor
        · intro hp
          cases hp
          exact ⟨h, by omega⟩
        · rintro ⟨hocc, hmin⟩
          cases p with
          | zero => rfl
          | succ q =>
              exact absurd (show occ (x :: t) 0 from h) (hmin 0 (by omega))
      · rw [if_neg h]
        cases p with
        | zero =>
            constructor
            · intro hz
              rcases Option.map_eq_some'.mp hz with ⟨a, -, ha⟩
              omega
            · rintro ⟨hocc, -⟩
              exact absurd hocc h
        | succ q =>
            rw [Option.map_eq_some']
            constructor
            · rintro ⟨a, ha, haq⟩
              have haq2 : a = q := by omega
              subst haq2
              obtain ⟨hocc, hmin⟩ := ih.mp ha
              refine ⟨occ_cons_succ.mpr hocc, ?_⟩
              intro r hr
              cases r with
              | zero => exact h
              | succ r2 => exact fun hc => hmin r2 (by omega) (occ_cons_succ.mp hc)
            · rintro ⟨hocc, hmin⟩
              refine ⟨q, ih.mpr ⟨occ_cons_succ.mp hocc, ?_⟩, rfl⟩
              intro r hr hc
              exact hmin (r + 1) (by omega) (occ_cons_succ.mpr hc)

theorem findLabel_eq_none_iff {b : List Nat} :
    findLabel b = none ↔ ∀ p, ¬ occ b p := by
  induction b with
  | nil =>
      simp only [findLabel]
      refine ⟨fun _ p hocc => ?_, fun _ => trivial⟩
      have := occ_length hocc
      simp at this
  | cons x t ih =>
      unfold findLabel
      by_cases h : (x :: t).take 8 = checksumLabel
      · rw [if_pos h]
        constructor
        · intro hc; cases hc
        · intro hall
          exact absurd (show occ (x :: t) 0 from h) (hall 0)
      · rw [if_neg h]
        rw [Option.map_eq_none', ih]
        constructor
        · intro hall p
          cases p with
          | zero => exact h
          | succ q => exact fun hc => hall q (occ_cons_succ.mp hc)
        · intro hall q hc
          exact hall (q + 1) (occ_cons_succ.mpr hc)

theorem occ_append_left {x y : List Nat} {p : Nat} (h : occ x p) : occ (x ++ y) p := by
  have hl := occ_length h
  unfold occ at h ⊢
  rw [List.drop_append_eq_append_drop, List.take_append_eq_append_take, h]
  have h0 : 8 - (x.drop p).length = 0 := by rw [List.length_drop]; omega
  rw [h0, List.take_zero, List.append_nil]

theorem occ_append_left_of_le {x y : List Nat} {p : Nat} (h : occ (x ++ y) p)
    (hp : p + 8 ≤ x.length) : occ x p := by
  unfold occ at h ⊢
  rw [List.drop_append_eq_append_drop, List.take_append_eq_append_take] at h
  have h0 : 8 - (x.drop p).length = 0 := by rw [List.length_drop]; omega
  rw [h0, List.take_zero, List.append_nil] at h
  exact h

theorem occ_append_right {x y : List Nat} {p : Nat} (h : occ y p) :
    occ (x ++ y) (x.length + p) := by
  unfold occ at h ⊢
  rw [List.drop_append_eq_append_drop]
  have h1 : x.length + p - x.length = p := by omega
  have h2 : x.drop (x.length + p) = [] := List.drop_eq_nil_of_le (by omega)
  rw [h1, h2, List.nil_append]
  exact h

theorem occ_take {b : List Nat} {m p : Nat} (h : occ (b.take m) p) : occ b p := by
  have hl := occ_length h
  rw [List.length_take] at hl
  unfold occ at h ⊢
  rw [List.drop_take, List.take_take] at h
  have hmin : min 8 (m - p) = 8 := by omega
  rw [hmin] at h
  exact h

theorem occ_drop {b : List Nat} {j p : Nat} (h : occ (b.drop j) p) : occ b (j + p) := by
  unfold occ at h ⊢
  rw [List.drop_drop] at h
  exact h

theorem findLabel_append {x : List Nat} {p : Nat} (h : findLabel x = some p)
    (y : List Nat) : findLabel (x ++ y) = some p := by
  rw [findLabel_eq_some_iff] at h ⊢
  obtain ⟨hocc, hmin⟩ := h
  have hl := occ_length hocc
  refine ⟨occ_append_left hocc, ?_⟩
  intro q hq hoccq
  exact hmin q hq (occ_append_left_of_le hoccq (by omega))

theorem findLabel_cons_ne {a : Nat} {t : List Nat} (h : a ≠ 67) :
    findLabel (a :: t) = (findLabel t).map (· + 1) := by
  have hc : ¬ ((a :: t).take 8 = checksumLabel) := by
    intro hc
    rw [show (a :: t).take 8 = a :: t.take 7 from rfl, checksumLabel] at hc
    injection hc with h1 _
    exact h h1
  conv_lhs => unfold findLabel
  rw [if_neg hc]

theorem findLabel_replicate_append {a : Nat} (h : a ≠ 67) :
    ∀ (n : Nat) (t : List Nat),
    findLabel (List.replicate n a ++ t) = (findLabel t).map (· + n) := by
  intro n
  induction n with
  | zero =>
      intro t
      rw [List.replicate_zero, List.nil_append]
      cases findLabel t <;> simp
  | succ m ih =>
      intro t
      rw [List.replicate_succ, List.cons_append, findLabel_cons_ne h, ih]
      cases findLabel t with
      | none => rfl
      | some q => simp; omega

theorem findLabel_label_append (t : List Nat) :
    findLabel (checksumLabel ++ t) = some 0 := rfl

/-! ## Framing a well-formed block -/

theorem goodBlock_length {body : List Nat} {ck : Nat} :
    (body ++ checksumLabel ++ [9, ck]).length = body.length + 10 := by
  simp [checksumLabel]

theorem goodBlock_take_body {body : List Nat} {ck : Nat} :
    (body ++ checksumLabel ++ [9, ck]).take body.length = body := by
  rw [List.take_append_of_le_length (by rw [List.length_append]; omega)]
  rw [List.take_append_of_le_length (by omega)]
  exact List.take_length body

theorem goodBlock_drop_body {body : List Nat} {ck : Nat} :
    (body ++ checksumLabel ++ [9, ck]).drop body.length = checksumLabel ++ [9, ck] := by
  rw [List.drop_append_of_le_length (by rw [List.length_append]; omega)]
  rw [List.drop_left]

theorem frame_append_good {body : List Nat} {ck : Nat}
    (hfind : findLabel (body ++ checksumLabel ++ [9, ck]) = some body.length)
    (hsum : (body ++ checksumLabel ++ [9, ck]).sum % 256 = 0) (r : List Nat) :
    frame ((body ++ checksumLabel ++ [9, ck]) ++ r) = .good body r := by
  have hBlen : (body ++ checksumLabel ++ [9, ck]).length = body.length + 10 :=
    goodBlock_length
  have hfind2 := findLabel_append hfind r
  unfold frame
  simp only [hfind2]
  rw [if_neg (by rw [List.length_append]; omega)]
  rw [List.take_append_of_le_length (by omega), List.drop_append_of_le_length (by omega)]
  rw [show body.length + 8 + 2 = (body ++ checksumLabel ++ [9, ck]).length by omega]
  rw [List.take_length, List.drop_length, List.nil_append]
  rw [if_pos hsum]
  rw [List.take_append_of_le_length (by omega)]
  rw [goodBlock_take_body]

theorem frame_append_bad {body : List Nat} {ck : Nat}
    (hfind : findLabel (body ++ checksumLabel ++ [9, ck]) = some body.length)
    (hsum : ¬ ((body ++ checksumLabel ++ [9, ck]).sum % 256 = 0)) (r : List Nat) :
    frame ((body ++ checksumLabel ++ [9, ck]) ++ r) = .bad r := by
  have hBlen : (body ++ checksumLabel ++ [9, ck]).length = body.length + 10 :=
    goodBlock_length
  have hfind2 := findLabel_append hfind r
  unfold frame
  simp only [hfind2]
  rw [if_neg (by rw [List.length_append]; omega)]
  rw [List.take_append_of_le_length (by omega), List.drop_append_of_le_length (by omega)]
  rw [show body.length + 8 + 2 = (body ++ checksumLabel ++ [9, ck]).length by omega]
  rw [List.take_length, List.drop_length, List.nil_append]
  rw [if_neg hsum]

theorem frame_take_need {body : List Nat} {ck : Nat}
    (hfind : findLabel (body ++ checksumLabel ++ [9, ck]) = some body.length)
    {m : Nat} (hm : m < (body ++ checksumLabel ++ [9, ck]).length) :
    frame ((body ++ checksumLabel ++ [9, ck]).take m) = .need := by
  have hBlen : (body ++ checksumLabel ++ [9, ck]).length = body.length + 10 :=
    goodBlock_length
  rw [findLabel_eq_some_iff] at hfind
  obtain ⟨hocc, hmin⟩ := hfind
  by_cases hcase : m ≤ body.length + 7
  · have hnone : findLabel ((body ++ checksumLabel ++ [9, ck]).take m) = none := by
      rw [findLabel_eq_none_iff]
      intro p hp
      have hl := occ_length hp
      rw [List.length_take] at hl
      exact hmin p (by omega) (occ_take hp)
    unfold frame
    simp only [hnone]
  · have hocc2 : occ ((body ++ checksumLabel ++ [9, ck]).take m) body.length := by
      unfold occ
      rw [List.drop_take]
      rw [goodBlock_drop_body, List.take_take]
      rw [show min 8 (m - body.length) = 8 by omega]
      rfl
    have hfind2 : findLabel ((body ++ checksumLabel ++ [9, ck]).take m) =
        some body.length := by
      rw [findLabel_eq_some_iff]
      exact ⟨hocc2, fun q hq hoccq => hmin q hq (occ_take hoccq)⟩
    unfold frame
    simp only [hfind2]
    rw [if_pos (by rw [List.length_take]; omega)]

theorem parsedOf_eq {body : List Nat} {ck : Nat} :
    parsedOf (body ++ checksumLabel ++ [9, ck]) = parseBlockSP body := by
  unfold parsedOf
  rw [show (body ++ checksumLabel ++ [9, ck]).length - 10 = body.length by
    rw [goodBlock_length]; omega]
  rw [goodBlock_take_body]

/-! ## The extraction loop on a stream of well-formed blocks -/

theorem processLoopSP_partial {rem : List (List Nat)} {r : List Nat}
    (hg : ∀ B ∈ rem, GoodBlockP B) (hr : PartialNext r rem) :
    processLoopSP r = ([], r) := by
  cases rem with
  | nil =>
      rw [show r = [] from hr]
      rfl
  | cons B t =>
      obtain ⟨m, hm, hrm⟩ := hr
      obtain ⟨body, ck, hB, hfind, hsum, hlen, -⟩ := hg B (List.mem_cons_self B t)
      subst hB
      subst hrm
      rw [processLoopSP_need (frame_take_need hfind hm)]
      unfold checkDiscard
      rw [if_neg (by rw [List.length_take]; omega)]

theorem processLoopSP_stream : ∀ (k : Nat) (rem : List (List Nat)) (r : List Nat),
    (∀ B ∈ rem, GoodBlockP B) → PartialNext r (rem.drop k) →
    processLoopSP ((rem.take k).flatten ++ r) = ((rem.take k).map parsedOf, r) := by
  intro k
  induction k with
  | zero =>
      intro rem r hg hr
      simp only [List.take_zero, List.flatten_nil, List.nil_append, List.map_nil]
      exact processLoopSP_partial hg hr
  | succ n ih =>
      intro rem r hg hr
      cases rem with
      | nil =>
          simp only [List.take_nil, List.flatten_nil, List.nil_append, List.map_nil]
          exact processLoopSP_partial (fun B hB => absurd hB (List.not_mem_nil B)) hr
      | cons B t =>
          obtain ⟨body, ck, hB, hfind, hsum, hlen, hne⟩ := hg B (List.mem_cons_self B t)
          subst hB
          have hgt : ∀ C ∈ t, GoodBlockP C := fun C hC => hg C (List.mem_cons_of_mem _ hC)
          have hr2 : PartialNext r (t.drop n) := hr
          rw [List.take_succ_cons, List.flatten_cons, List.map_cons, List.append_assoc]
          rw [processLoopSP_good (frame_append_good hfind hsum _) hne]
          rw [ih t r hgt hr2, parsedOf_eq]

theorem stream_decompose : ∀ (rem : List (List Nat)) (p s : List Nat),
    (∀ B ∈ rem, GoodBlockP B) → p ++ s = rem.flatten →
    ∃ k r2, p = (rem.take k).flatten ++ r2 ∧ PartialNext r2 (rem.drop k) := by
  intro rem
  induction rem with
  | nil =>
      intro p s _ hps
      rw [List.flatten_nil] at hps
      obtain ⟨hp, -⟩ := List.append_eq_nil.mp hps
      exact ⟨0, [], by simp [hp], rfl⟩
  | cons B t ih =>
      intro p s hg hps
      rw [List.flatten_cons] at hps
      have hgt : ∀ C ∈ t, GoodBlockP C := fun C hC => hg C (List.mem_cons_of_mem _ hC)
      by_cases hlen : p.length < B.length
      · refine ⟨0, p, by simp, p.length, hlen, ?_⟩
        have hp : p = (B ++ t.flatten).take p.length := by
          rw [← hps, List.take_append_of_le_length (le_refl _), List.take_length]
        conv_lhs => rw [hp]
        rw [List.take_append_of_le_length (by omega)]
      · push_neg at hlen
        have h1 : p.take B.length = B := by
          have h2 : (p ++ s).take B.length = B := by
            rw [hps, List.take_append_of_le_length (le_refl _), List.take_length]
          rw [List.take_append_of_le_length hlen] at h2
          exact h2
        have hsplit : B ++ p.drop B.length = p := by
          conv_rhs => rw [← List.take_append_drop B.length p]
          rw [h1]
        have hrec : p.drop B.length ++ s = t.flatten := by
          have h3 : B ++ (p.drop B.length ++ s) = B ++ t.flatten := by
            rw [← List.append_assoc, hsplit, hps]
          exact List.append_cancel_left h3
        obtain ⟨k, r2, hdec, hpart⟩ := ih (p.drop B.length) s hgt hrec
        refine ⟨k + 1, r2, ?_, hpart⟩
        rw [List.take_succ_cons, List.flatten_cons, List.append_assoc, ← hdec, hsplit]

theorem PartialNext_nil : ∀ (rem : List (List Nat)),
    (∀ B ∈ rem, GoodBlockP B) → PartialNext [] rem := by
  intro rem hg
  cases rem with
  | nil => rfl
  | cons B t =>
      obtain ⟨body, ck, hB, -, -, -, -⟩ := hg B (List.mem_cons_self B t)
      refine ⟨0, ?_, (List.take_zero B).symm⟩
      rw [hB, goodBlock_length]
      omega

theorem feedAllSP_stream : ∀ (cs rem : List (List Nat)) (r : List Nat),
    (∀ B ∈ rem, GoodBlockP B) → PartialNext r rem →
    r ++ cs.flatten = rem.flatten →
    feedAllSP cs r = (rem.map parsedOf, []) := by
  intro cs
  induction cs with
  | nil =>
      intro rem r hg hr hflat
      rw [List.flatten_nil, List.append_nil] at hflat
      cases rem with
      | nil =>
          rw [show r = [] from hr]
          rfl
      | cons B t =>
          exfalso
          obtain ⟨m, hm, hrm⟩ := hr
          rw [List.flatten_cons] at hflat
          have h1 := congrArg List.length hflat
          rw [hrm] at h1
          rw [List.length_take, List.length_append] at h1
          omega
  | cons c cs' ih =>
      intro rem r hg hr hflat
      by_cases hc : c = []
      · subst hc
        have hstep : feedAllSP ([] :: cs') r = feedAllSP cs' r := by
          show ((processSP [] r).1.getD [] ++ (feedAllSP cs' (processSP [] r).2).1,
            (feedAllSP cs' (processSP [] r).2).2) = _
          rw [show processSP [] r = (none, r) from rfl]
          rfl
        rw [hstep]
        apply ih rem r hg hr
        rw [List.flatten_cons, List.nil_append] at hflat
        exact hflat
      · have hpre : (r ++ c) ++ cs'.flatten = rem.flatten := by
          rw [← hflat, List.flatten_cons, List.append_assoc]
        obtain ⟨k, r2, hdec, hpart⟩ := stream_decompose rem (r ++ c) cs'.flatten hg hpre
        have hgdrop : ∀ B ∈ rem.drop k, GoodBlockP B :=
          fun B hB => hg B (List.drop_subset k rem hB)
        have hloop : processLoopSP (r ++ c) = ((rem.take k).map parsedOf, r2) := by
          rw [hdec]
          exact processLoopSP_stream k rem r2 hg hpart
        have hP : processSP c r = (some ((rem.take k).map parsedOf), r2) := by
          unfold processSP
          rw [if_neg hc]
          show (some (processLoopSP (r ++ c)).1, (processLoopSP (r ++ c)).2) = _
          rw [hloop]
        have hstep : feedAllSP (c :: cs') r =
            ((rem.take k).map parsedOf ++ (feedAllSP cs' r2).1, (feedAllSP cs' r2).2) := by
          show ((processSP c r).1.getD [] ++ (feedAllSP cs' (processSP c r).2).1,
            (feedAllSP cs' (processSP c r).2).2) = _
          rw [hP]
          rfl
        rw [hstep]
        have hflat2 : r2 ++ cs'.flatten = (rem.drop k).flatten := by
          have h3 : (rem.take k).flatten ++ (r2 ++ cs'.flatten) =
              (rem.take k).flatten ++ (rem.drop k).flatten := by
            rw [← List.append_assoc, ← hdec, hpre, ← List.flatten_append,
              List.take_append_drop]
          exact List.append_cancel_left h3
        rw [ih (rem.drop k) r2 hgdrop hpart hflat2]
        rw [← List.map_append, List.take_append_drop]

/-! ## Bounded memory on label-free streams -/

theorem frame_of_no_occ {buf : List Nat} (h : ∀ p, ¬ occ buf p) : frame buf = .need := by
  unfold frame
  simp only [findLabel_eq_none_iff.mpr h]

theorem checkDiscard_length {buf : List Nat} (h : buf.length < 2048) :
    (checkDiscard buf).length < 1024 := by
  unfold checkDiscard
  split
  · rw [List.length_drop]; omega
  · omega

theorem checkDiscard_drop (buf : List Nat) : ∃ j, j ≤ buf.length ∧
    checkDiscard buf = buf.drop j := by
  unfold checkDiscard
  split
  · exact ⟨1024, by omega, rfl⟩
  · exact ⟨0, by omega, rfl⟩

theorem feedAllSP_no_label_bound : ∀ (cs : List (List Nat)) (r : List Nat),
    (∀ c ∈ cs, c.length ≤ 1024) → (∀ p, ¬ occ (r ++ cs.flatten) p) →
    r.length < 1024 → ((feedAllSP cs r).2).length < 1024 := by
  intro cs
  induction cs with
  | nil => intro r _ _ hr; exact hr
  | cons c cs' ih =>
      intro r hsize hocc hr
      have hsize' : ∀ d ∈ cs', d.length ≤ 1024 :=
        fun d hd => hsize d (List.mem_cons_of_mem _ hd)
      by_cases hc : c = []
      · subst hc
        have hstep : feedAllSP ([] :: cs') r = feedAllSP cs' r := by
          show ((processSP [] r).1.getD [] ++ (feedAllSP cs' (processSP [] r).2).1,
            (feedAllSP cs' (processSP [] r).2).2) = _
          rw [show processSP [] r = (none, r) from rfl]
          rfl
        rw [hstep]
        apply ih r hsize' ?_ hr
        intro p hp
        apply hocc p
        rw [List.flatten_cons, List.nil_append]
        exact hp
      · have hoccrc : ∀ p, ¬ occ (r ++ c) p := by
          intro p hp
          apply hocc p
          rw [List.flatten_cons, ← List.append_assoc]
          exact occ_append_left hp
        have hP : processSP c r = (some [], checkDiscard (r ++ c)) := by
          unfold processSP
          rw [if_neg hc]
          show (some (processLoopSP (r ++ c)).1, (processLoopSP (r ++ c)).2) = _
          rw [processLoopSP_need (frame_of_no_occ hoccrc)]
        have hstep : feedAllSP (c :: cs') r = feedAllSP cs' (checkDiscard (r ++ c)) := by
          show ((processSP c r).1.getD [] ++ (feedAllSP cs' (processSP c r).2).1,
            (feedAllSP cs' (processSP c r).2).2) = _
          rw [hP]
          rfl
        rw [hstep]
        obtain ⟨j, hj, hdropj⟩ := checkDiscard_drop (r ++ c)
        apply ih
        · exact hsize'
        · intro p hp
          rw [hdropj] at hp
          have h2 : occ ((r ++ c) ++ cs'.flatten) (j + p) := by
            have h3 : ((r ++ c) ++ cs'.flatten).drop j = (r ++ c).drop j ++ cs'.flatten := by
              rw [List.drop_append_eq_append_drop,
                show j - (r ++ c).length = 0 by omega, List.drop_zero]
            apply occ_drop
            rw [h3]
            exact hp
          apply hocc (j + p)
          rw [List.flatten_cons, ← List.append_assoc]
          exact h2
        · apply checkDiscard_length
          rw [List.length_append]
          have := hsize c (List.mem_cons_self c cs')
          omega

/-! ## Unknown-code passthrough in the dict parser -/

theorem dictInsert_lookup_self (k v : String) :
    ∀ blk : Block, (dictInsert k v blk).lookup k = some v := by
  intro blk
  induction blk with
  | nil => simp [dictInsert, List.lookup]
  | cons p t ih =>
      obtain ⟨k0, v0⟩ := p
      unfold dictInsert
      by_cases h : k0 = k
      · rw [if_pos h]
        simp [List.lookup]
      · rw [if_neg h]
        have hbeq : (k == k0) = false := beq_eq_false_iff_ne.mpr (Ne.symm h)
        simp [List.lookup, hbeq, ih]

theorem dictInsert_lookup_ne {k k2 : String} (h : k2 ≠ k) (v : String) :
    ∀ blk : Block, (dictInsert k v blk).lookup k2 = blk.lookup k2 := by
  intro blk
  have hbeq : (k2 == k) = false := beq_eq_false_iff_ne.mpr h
  induction blk with
  | nil => simp [dictInsert, List.lookup, hbeq]
  | cons p t ih =>
      obtain ⟨k0, v0⟩ := p
      unfold dictInsert
      by_cases h0 : k0 = k
      · subst h0
        rw [if_pos rfl]
        simp [List.lookup, hbeq]
      · rw [if_neg h0]
        simp [List.lookup, ih]

theorem stepSP_lookup_ne {code : String} {l : List Nat}
    (hk : lineKeyIsNot code l = true) :
    ∀ blk : Block, (stepSP blk l).lookup code = blk.lookup code := by
  intro blk
  unfold stepSP
  by_cases hl : l = []
  · rw [if_pos hl]
  · rw [if_neg hl]
    unfold parseLineSP
    unfold lineKeyIsNot at hk
    rcases hs : splitTab l with _ | ⟨k, _ | ⟨v, _ | ⟨w, rest⟩⟩⟩ <;>
      simp only [hs] at hk ⊢
    exact dictInsert_lookup_ne (Ne.symm (by simpa using hk)) _ blk

theorem foldl_stepSP_lookup_ne {code : String} :
    ∀ (ls : List (List Nat)) (blk : Block),
    (∀ l ∈ ls, lineKeyIsNot code l = true) →
    (ls.foldl stepSP blk).lookup code = blk.lookup code := by
  intro ls
  induction ls with
  | nil => intro blk _; rfl
  | cons l t ih =>
      intro blk hall
      rw [List.foldl_cons]
      rw [ih (stepSP blk l) (fun x hx => hall x (List.mem_cons_of_mem _ hx))]
      exact stepSP_lookup_ne (hall l (List.mem_cons_self l t)) blk

theorem stepSP_lookup_set {code value : String} {l kb vb : List Nat}
    (hs : splitTab l = [kb, vb]) (hkb : decodeAscii kb = code)
    (hvb : decodeAscii vb = value) (blk : Block) :
    (stepSP blk l).lookup code = some value := by
  have hl : l ≠ [] := by
    intro hl
    subst hl
    rw [show splitTab [] = [[]] from rfl] at hs
    cases hs
  unfold stepSP
  rw [if_neg hl]
  unfold parseLineSP
  simp only [hs]
  rw [hkb, hvb]
  exact dictInsert_lookup_self code value blk

/-! ## Field dispatch in the typed parser -/

theorem except_map_ok {α β ε : Type} {f : α → β} {x : Except ε α} {b : β}
    (h : x.map f = .ok b) : ∃ a, x = .ok a ∧ b = f a := by
  cases x with
  | ok a =>
      refine ⟨a, rfl, ?_⟩
      cases h
      rfl
  | error e => cases h

set_option maxHeartbeats 2000000 in
theorem set_value_voltage {d d2 : MonitorData} {k v : String} (hk : ¬ (k = "V"))
    (h : d.set_value k v = .ok d2) : d2.voltage = d.voltage := by
  unfold MonitorData.set_value at h
  rw [if_neg hk] at h
  by_cases hc0 : k = "I"
  · rw [if_pos hc0] at h
    obtain ⟨n, hx, hb⟩ := except_map_ok h
    subst hb
    rfl
  rw [if_neg hc0] at h
  by_cases hc1 : k = "CE"
  · rw [if_pos hc1] at h
    obtain ⟨n, hx, hb⟩ := except_map_ok h
    subst hb
    rfl
  rw [if_neg hc1] at h
  by_cases hc2 : k = "SOC"
  · rw [if_pos hc2] at h
    obtain ⟨n, hx, hb⟩ := except_map_ok h
    subst hb
    rfl
  rw [if_neg hc2] at h
  by_cases hc3 : k = "TTG"
  · rw [if_pos hc3] at h
    obtain ⟨n, hx, hb⟩ := except_map_ok h
    subst hb
    rfl
  rw [if_neg hc3] at h
  by_cases hc4 : k = "Alarm"
  · rw [if_pos hc4] at h
    cases h
    rfl
  rw [if_neg hc4] at h
  by_cases hc5 : k = "Relay"
  · rw [if_pos hc5] at h
    cases h
    rfl
  rw [if_neg hc5] at h
  by_cases hc6 : k = "AR"
  · rw [if_pos hc6] at h
    obtain ⟨n, hx, hb⟩ := except_map_ok h
    subst hb
    rfl
  rw [if_neg hc6] at h
  by_cases hc7 : k = "BMV"
  · rw [if_pos hc7] at h
    cases h
    rfl
  rw [if_neg hc7] at h
  by_cases hc8 : k = "FW"
  · rw [if_pos hc8] at h
    cases h
    rfl
  rw [if_neg hc8] at h
  by_cases hc9 : k = "H1"
  · rw [if_pos hc9] at h
    obtain ⟨n, hx, hb⟩ := except_map_ok h
    subst hb
    rfl
  rw [if_neg hc9] at h
  by_cases hc10 : k = "H2"
  · rw [if_pos hc10] at h
    obtain ⟨n, hx, hb⟩ := except_map_ok h
    subst hb
    rfl
  rw [if_neg hc10] at h
  by_cases hc11 : k = "H3"
  · rw [if_pos hc11] at h
    obtain ⟨n, hx, hb⟩ := except_map_ok h
    subst hb
    rfl
  rw [if_neg hc11] at h
  by_cases hc12 : k = "H4"
  · rw [if_pos hc12] at h
    obtain ⟨n, hx, hb⟩ := except_map_ok h
    subst hb
    rfl
  rw [if_neg hc12] at h
  by_cases hc13 : k = "H5"
  · rw [if_pos hc13] at h
    obtain ⟨n, hx, hb⟩ := except_map_ok h
    subst hb
    rfl
  rw [if_neg hc13] at h
  by_cases hc14 : k = "H6"
  · rw [if_pos hc14] at h
    obtain ⟨n, hx, hb⟩ := except_map_ok h
    subst hb
    rfl
  rw [if_neg hc14] at h
  by_cases hc15 : k = "H7"
  · rw [if_pos hc15] at h
    obtain ⟨n, hx, hb⟩ := except_map_ok h
    subst hb
    rfl
  rw [if_neg hc15] at h
  by_cases hc16 : k = "H8"
  · rw [if_pos hc16] at h
    obtain ⟨n, hx, hb⟩ := except_map_ok h
    subst hb
    rfl
  rw [if_neg hc16] at h
  by_cases hc17 : k = "H9"
  · rw [if_pos hc17] at h
    obtain ⟨n, hx, hb⟩ := except_map_ok h
    subst hb
    rfl
  rw [if_neg hc17] at h
  by_cases hc18 : k = "H10"
  · rw [if_pos hc18] at h
    obtain ⟨n, hx, hb⟩ := except_map_ok h
    subst hb
    rfl
  rw [if_neg hc18] at h
  by_cases hc19 : k = "H11"
  · rw [if_pos hc19] at h
    obtain ⟨n, hx, hb⟩ := except_map_ok h
    subst hb
    rfl
  rw [if_neg hc19] at h
  by_cases hc20 : k = "H12"
  · rw [if_pos hc20] at h
    obtain ⟨n, hx, hb⟩ := except_map_ok h
    subst hb
    rfl
  rw [if_neg hc20] at h
  exact Except.noConfusion h

theorem parseLineEx_voltage {d d2 : MonitorData} {l : List Nat}
    (hk : lineKeyIsNot "V" l = true) (h : parseLineEx d l = .ok d2) :
    d2.voltage = d.voltage := by
  unfold parseLineEx at h
  by_cases hl : l = []
  · rw [if_pos hl] at h
    cases h
    rfl
  · rw [if_neg hl] at h
    unfold lineKeyIsNot at hk
    rcases hs : splitTab l with _ | ⟨k, _ | ⟨v, _ | ⟨w, rest⟩⟩⟩ <;>
      simp only [hs] at hk h
    · cases h; rfl
    · cases h; rfl
    · rcases hsv : MonitorData.set_value d (decodeAscii k) (decodeAscii v) with e | d3 <;>
        simp only [hsv] at h
      · cases e with
        | valueError => cases h
        | keyError => cases h; rfl
        | typeError => cases h
      · cases h
        exact set_value_voltage (by simpa using hk) hsv
    · cases h; rfl

theorem parseBlockBR_voltage : ∀ (lines : List (List Nat)) (d d2 : MonitorData),
    (∀ l ∈ lines, lineKeyIsNot "V" l = true) →
    lines.foldlM parseLineEx d = .ok d2 → d2.voltage = d.voltage := by
  intro lines
  induction lines with
  | nil =>
      intro d d2 _ h
      cases h
      rfl
  | cons l ls ih =>
      intro d d2 hall h
      have h2 : (parseLineEx d l >>= fun s => ls.foldlM parseLineEx s) = .ok d2 := h
      rcases hp : parseLineEx d l with e | d3 <;> rw [hp] at h2
      · exact Except.noConfusion
          (show (Except.error e : Except PyErr MonitorData) = .ok d2 from h2)
      · have h3 : ls.foldlM parseLineEx d3 = .ok d2 := h2
        rw [ih d3 d2 (fun x hx => hall x (List.mem_cons_of_mem _ hx)) h3]
        exact parseLineEx_voltage (hall l (List.mem_cons_self l ls)) hp

/-! ## Convenience equations for whole calls -/

theorem processSP_eq_loop {data buf : List Nat} (h : data ≠ []) :
    processSP data buf =
      (some (processLoopSP (buf ++ data)).1, (processLoopSP (buf ++ data)).2) := by
  unfold processSP
  rw [if_neg h]

theorem goodBlock_ne_nil {body : List Nat} {ck : Nat} :
    body ++ checksumLabel ++ [9, ck] ≠ [] := by
  intro he
  have hlen : (body ++ checksumLabel ++ [9, ck]).length = body.length + 10 :=
    goodBlock_length
  rw [he] at hlen
  simp only [List.length_nil] at hlen
  omega

theorem processSP_single {body : List Nat} {ck : Nat}
    (hfind : findLabel (body ++ checksumLabel ++ [9, ck]) = some body.length)
    (hsum : (body ++ checksumLabel ++ [9, ck]).sum % 256 = 0)
    (hb : parseBlockSP body ≠ []) :
    processSP (body ++ checksumLabel ++ [9, ck]) [] = (some [parseBlockSP body], []) := by
  rw [processSP_eq_loop goodBlock_ne_nil, List.nil_append]
  have hfg := frame_append_good hfind hsum []
  rw [List.append_nil] at hfg
  rw [processLoopSP_good hfg hb]
  rfl

theorem processSP_single_empty {body : List Nat} {ck : Nat}
    (hfind : findLabel (body ++ checksumLabel ++ [9, ck]) = some body.length)
    (hsum : (body ++ checksumLabel ++ [9, ck]).sum % 256 = 0)
    (hb : parseBlockSP body = []) :
    processSP (body ++ checksumLabel ++ [9, ck]) [] = (some [], []) := by
  rw [processSP_eq_loop goodBlock_ne_nil, List.nil_append]
  have hfg := frame_append_good hfind hsum []
  rw [List.append_nil] at hfg
  rw [processLoopSP_good_empty hfg hb]
  rfl

theorem processSP_single_bad {body : List Nat} {ck : Nat}
    (hfind : findLabel (body ++ checksumLabel ++ [9, ck]) = some body.length)
    (hsum : ¬ ((body ++ checksumLabel ++ [9, ck]).sum % 256 = 0)) :
    processSP (body ++ checksumLabel ++ [9, ck]) [] = (some [], []) := by
  rw [processSP_eq_loop goodBlock_ne_nil, List.nil_append]
  have hfb := frame_append_bad hfind hsum []
  rw [List.append_nil] at hfb
  rw [processLoopSP_bad hfb]
  rfl

theorem readB_single_good {body : List Nat} {ck : Nat} {d dv : MonitorData}
    (hfind : findLabel (body ++ checksumLabel ++ [9, ck]) = some body.length)
    (hsum : (body ++ checksumLabel ++ [9, ck]).sum % 256 = 0)
    (hp : parseBlockBR d body = .ok dv) :
    readB (body ++ checksumLabel ++ [9, ck]) ⟨[], d⟩ = .ok (1, ⟨[], dv⟩) := by
  unfold readB
  rw [if_neg goodBlock_ne_nil]
  show readLoop ⟨[] ++ (body ++ checksumLabel ++ [9, ck]), d⟩ = _
  rw [List.nil_append]
  have hfg := frame_append_good hfind hsum []
  rw [List.append_nil] at hfg
  rw [readLoop_good hfg hp]
  rw [readLoop_need (show frame ([] : List Nat) = .need from rfl)]
  rfl

theorem feedAllSP_nil (buf : List Nat) : feedAllSP [] buf = ([], buf) := rfl

theorem feedAllSP_cons (c : List Nat) (cs : List (List Nat)) (buf : List Nat) :
    feedAllSP (c :: cs) buf =
      ((processSP c buf).1.getD [] ++ (feedAllSP cs (processSP c buf).2).1,
        (feedAllSP cs (processSP c buf).2).2) := rfl

theorem feedAllSP_singleton (c : List Nat) :
    feedAllSP [c] [] = ((processSP c []).1.getD [], (processSP c []).2) := by
  show ((processSP c []).1.getD [] ++ ([] : List Block), (processSP c []).2) = _
  rw [List.append_nil]

/-! ## Decoding bodies made of plain lines, and the oversized-block stream -/

theorem splitlines_cons_other {c : Nat} {t : List Nat} (h13 : ¬ (c = 13)) (h10 : ¬ (c = 10)) :
    splitlines (c :: t) =
      match splitlines t with
      | [] => [[c]]
      | l :: ls => (c :: l) :: ls := by
  rw [splitlines.eq_def]
  split
  · rename_i heq
    cases heq
  · rename_i t2 heq
    injection heq with h1 _
    exact absurd h1 h13
  · rename_i t2 heq
    injection heq with h1 _
    exact absurd h1 h13
  · rename_i t2 heq
    injection heq with h1 _
    exact absurd h1 h10
  · rename_i c2 t2 h1 h2 h3 heq
    injection heq with hc ht
    subst hc
    subst ht
    rfl

theorem splitTab_cons_other {c : Nat} {t : List Nat} (h9 : ¬ (c = 9)) :
    splitTab (c :: t) =
      match splitTab t with
      | [] => [[c]]
      | l :: ls => (c :: l) :: ls := by
  rw [splitTab.eq_def]
  split
  · rename_i heq
    cases heq
  · rename_i t2 heq
    injection heq with h1 _
    exact absurd h1 h9
  · rename_i c2 t2 h1 heq
    injection heq with hc ht
    subst hc
    subst ht
    rfl

theorem splitlines_single_crlf {x : List Nat}
    (h : ∀ b ∈ x, ¬ (b = 13) ∧ ¬ (b = 10)) : splitlines (x ++ [13, 10]) = [x] := by
  induction x with
  | nil => rfl
  | cons c t ih =>
      obtain ⟨h13, h10⟩ := h c (List.mem_cons_self c t)
      rw [List.cons_append, splitlines_cons_other h13 h10,
        ih (fun b hb => h b (List.mem_cons_of_mem _ hb))]

theorem splitTab_no_tab {x : List Nat} (h : ∀ b ∈ x, ¬ (b = 9)) :
    splitTab x = [x] := by
  induction x with
  | nil => rfl
  | cons c t ih =>
      rw [splitTab_cons_other (h c (List.mem_cons_self c t)),
        ih (fun b hb => h b (List.mem_cons_of_mem _ hb))]

theorem cexBigBody_length : cexBigBody.length = 1015 := by
  show (([86, 9] ++ List.replicate 1011 49) ++ [13, 10]).length = 1015
  rw [List.length_append, List.length_append, List.length_replicate]
  rfl

theorem cexBigBody_sum : cexBigBody.sum = 49657 := by
  show (([86, 9] ++ List.replicate 1011 49) ++ [13, 10]).sum = 49657
  rw [List.sum_append, List.sum_append, List.sum_const_nat]
  rfl

theorem findLabel_cexBig (t : List Nat) :
    findLabel (cexBigBody ++ checksumLabel ++ t) = some 1015 := by
  rw [show cexBigBody ++ checksumLabel ++ t =
      86 :: 9 :: (List.replicate 1011 49 ++ (13 :: 10 :: (checksumLabel ++ t))) by
    simp only [cexBigBody, List.append_assoc, List.cons_append, List.nil_append]]
  rw [findLabel_cons_ne (by decide), findLabel_cons_ne (by decide)]
  rw [findLabel_replicate_append (by decide) 1011 (13 :: 10 :: (checksumLabel ++ t))]
  rw [findLabel_cons_ne (by decide), findLabel_cons_ne (by decide)]
  rw [findLabel_label_append]
  rfl

theorem parseBlockSP_cexBigBody :
    parseBlockSP cexBigBody =
      [(decodeAscii [86], decodeAscii (List.replicate 1011 49))] := by
  have hsl : splitlines cexBigBody = [86 :: 9 :: List.replicate 1011 49] := by
    rw [show cexBigBody = 86 :: 9 :: (List.replicate 1011 49 ++ [13, 10]) by
      simp only [cexBigBody, List.cons_append, List.nil_append]]
    rw [splitlines_cons_other (by decide) (by decide),
      splitlines_cons_other (by decide) (by decide),
      splitlines_single_crlf (fun b hb => by
        rw [List.eq_of_mem_replicate hb]
        exact ⟨by decide, by decide⟩)]
  have hst : splitTab (86 :: 9 :: List.replicate 1011 49) =
      [[86], List.replicate 1011 49] := by
    rw [splitTab_cons_other (by decide)]
    rw [show splitTab (9 :: List.replicate 1011 49) =
        [] :: splitTab (List.replicate 1011 49) from rfl]
    rw [splitTab_no_tab (fun b hb => by rw [List.eq_of_mem_replicate hb]; decide)]
  unfold parseBlockSP
  rw [hsl, List.foldl_cons, List.foldl_nil]
  unfold stepSP
  rw [if_neg (List.cons_ne_nil _ _)]
  unfold parseLineSP
  rw [hst]
  rfl

theorem parseBlockSP_cexBigBody_ne : parseBlockSP cexBigBody ≠ [] := by
  rw [parseBlockSP_cexBigBody]
  exact List.cons_ne_nil _ _

/-! ## The claims -/

/-- C1 counterexample: a candidate block whose lines are terminated by LF
alone and whose virtual-CRLF checksum (the spec's rule) is 0 mod 256 is
nevertheless rejected by the parser — the code sums the actual bytes. The
block is `V\t1\n` followed by `Checksum\t\x06`. -/
theorem claim1_counterexample :
    specVirtualChecksum ([86, 9, 49, 10] ++ checksumLabel ++ [9, 6]) % 256 = 0 ∧
    processSP ([86, 9, 49, 10] ++ checksumLabel ++ [9, 6]) [] = (some [], []) := by
  decide

/-- C1 (amended): for every candidate block that is the whole buffer and
whose first label occurrence is its terminator, the checksum test sums the
block's ACTUAL bytes — no virtual CR LF bytes are substituted for the line
terminators actually present — and the call reports the decoded block if and
only if that sum is 0 mod 256 and the decoded dict is non-empty: a
checksum-valid block that decodes to an empty dict is consumed from the
buffer but, being falsy under Python truthiness, contributes nothing to the
result. -/
theorem claim1_theorem {body : List Nat} {ck : Nat}
    (hfind : findLabel (body ++ checksumLabel ++ [9, ck]) = some body.length) :
    processSP (body ++ checksumLabel ++ [9, ck]) [] =
      (some (if (body ++ checksumLabel ++ [9, ck]).sum % 256 = 0
        then (if parseBlockSP body = [] then []
          else [parsedOf (body ++ checksumLabel ++ [9, ck])])
        else []), []) := by
  by_cases hsum : (body ++ checksumLabel ++ [9, ck]).sum % 256 = 0
  · by_cases hb : parseBlockSP body = []
    · rw [if_pos hsum, if_pos hb, processSP_single_empty hfind hsum hb]
    · rw [if_pos hsum, if_neg hb, processSP_single hfind hsum hb, parsedOf_eq]
  · rw [if_neg hsum, processSP_single_bad hfind hsum]

/-- C1 witness: the CRLF-terminated block `V\t1\r\nChecksum\t\x1d` sums to
0 mod 256, decodes to a non-empty dict, and is extracted. -/
theorem claim1_witness :
    processSP ([86, 9, 49, 13, 10] ++ checksumLabel ++ [9, 29]) [] =
      (some (if ([86, 9, 49, 13, 10] ++ checksumLabel ++ [9, 29]).sum % 256 = 0
        then (if parseBlockSP [86, 9, 49, 13, 10] = [] then []
          else [parsedOf ([86, 9, 49, 13, 10] ++ checksumLabel ++ [9, 29])])
        else []), []) :=
  claim1_theorem (by decide)

/-- C2 counterexample: a valid two-block stream (first block 1025 bytes
long) yields two blocks when fed in one call, but zero blocks when fed split
at 1024 bytes, because the bounded discard fires while the oversized block
is still incomplete. -/
theorem claim2_counterexample :
    cexChunkA ++ cexChunkB = cexStream ∧
    (feedAllSP [cexStream] []).1.length = 2 ∧
    (feedAllSP [cexChunkA, cexChunkB] []).1.length = 0 := by
  have hfind1 : findLabel (cexBigBody ++ checksumLabel ++ [9, 203]) =
      some cexBigBody.length := by
    rw [findLabel_cexBig [9, 203], cexBigBody_length]
  have hsum1 : (cexBigBody ++ checksumLabel ++ [9, 203]).sum % 256 = 0 := by
    rw [List.sum_append, List.sum_append, cexBigBody_sum]
    decide
  refine ⟨?_, ?_, ?_⟩
  · show ((cexBigBody ++ checksumLabel) ++ [9]) ++
        (203 :: (cexSmallBody ++ checksumLabel ++ [9, 40])) =
      ((cexBigBody ++ checksumLabel) ++ [9, 203]) ++
        ((cexSmallBody ++ checksumLabel) ++ [9, 40])
    rw [List.append_assoc (cexBigBody ++ checksumLabel) [9]
      (203 :: (cexSmallBody ++ checksumLabel ++ [9, 40]))]
    rw [List.append_assoc (cexBigBody ++ checksumLabel) [9, 203]
      ((cexSmallBody ++ checksumLabel) ++ [9, 40])]
    rfl
  · have hfg1 : frame cexStream = .good cexBigBody cexSmall := by
      show frame ((cexBigBody ++ checksumLabel ++ [9, 203]) ++ cexSmall) = _
      exact frame_append_good hfind1 hsum1 cexSmall
    have hfg2 : frame cexSmall = .good cexSmallBody [] := by
      show frame ((cexSmallBody ++ checksumLabel ++ [9, 40]) ++ []) = _
      exact frame_append_good (by decide) (by decide) []
    have hne : cexStream ≠ [] := by decide
    have hS : processSP cexStream [] =
        (some [parseBlockSP cexBigBody, parseBlockSP cexSmallBody], []) := by
      rw [processSP_eq_loop hne, List.nil_append]
      rw [processLoopSP_good hfg1 parseBlockSP_cexBigBody_ne]
      rw [processLoopSP_good hfg2 (by decide)]
      rfl
    rw [feedAllSP_singleton, hS]
    rfl
  · have hfindA : findLabel cexChunkA = some 1015 := findLabel_cexBig [9]
    have hlenA : cexChunkA.length = 1024 := by
      show ((cexBigBody ++ checksumLabel) ++ [9]).length = 1024
      rw [List.length_append, List.length_append, cexBigBody_length]
      rfl
    have hframeA : frame cexChunkA = .need := by
      unfold frame
      simp only [hfindA]
      rw [if_pos (by omega)]
    have hAne : cexChunkA ≠ [] := by decide
    have hA : processSP cexChunkA [] = (some [], []) := by
      rw [processSP_eq_loop hAne, List.nil_append, processLoopSP_need hframeA]
      unfold checkDiscard
      rw [if_pos (by omega)]
      rw [List.drop_eq_nil_of_le (by omega)]
    have hB2 : processSP cexChunkB [] = (some [], []) := by decide
    have h2 : feedAllSP [cexChunkA, cexChunkB] [] = ([], []) := by
      rw [feedAllSP_cons, hA]
      simp only [Option.getD_some, List.nil_append]
      rw [feedAllSP_cons, hB2]
      simp only [Option.getD_some, List.nil_append]
      rfl
    rw [h2]
    rfl

/-- C2 (amended): for every stream that is a concatenation of well-formed
blocks whose first label occurrence is their terminator and whose length is
at most the 1024-byte discard bound, feeding the stream in one call and
feeding it split into arbitrary sub-chunks (including one-byte and empty
chunks) produce the identical sequence of decoded blocks — the parse of each
block body in order — and the same final (empty) buffer, hence the same
per-stream total of extracted blocks. -/
theorem claim2_theorem (Bs cs : List (List Nat)) (hg : ∀ B ∈ Bs, GoodBlockP B)
    (hcs : cs.flatten = Bs.flatten) :
    feedAllSP cs [] = (Bs.map parsedOf, []) ∧
    feedAllSP [Bs.flatten] [] = (Bs.map parsedOf, []) := by
  constructor
  · exact feedAllSP_stream cs Bs [] hg (PartialNext_nil Bs hg) (by rw [List.nil_append, hcs])
  · refine feedAllSP_stream [Bs.flatten] Bs [] hg (PartialNext_nil Bs hg) ?_
    rw [List.nil_append]
    show ([Bs.flatten]).flatten = Bs.flatten
    rw [List.flatten_cons, List.flatten_nil, List.append_nil]

/-- C2 witness: the single small valid block `I\t3\r\nChecksum\t\x28` fed
whole or split into two chunks yields the same one-block result. -/
theorem claim2_witness :
    feedAllSP [[73, 9, 51], [13, 10, 67, 104, 101, 99, 107, 115, 117, 109, 9, 40]] [] =
      ([cexSmall].map parsedOf, []) ∧
    feedAllSP [List.flatten [cexSmall]] [] = ([cexSmall].map parsedOf, []) :=
  claim2_theorem [cexSmall] [[73, 9, 51], [13, 10, 67, 104, 101, 99, 107, 115, 117, 109, 9, 40]]
    (by
      intro B hB
      rw [List.mem_singleton] at hB
      subst hB
      exact ⟨cexSmallBody, 40, rfl, by decide, by decide, by decide, by decide⟩)
    (by decide)

/-- C3 counterexample: one feed call whose data is an invalid block followed
by a complete valid block extracts zero blocks — the valid block stays in
the buffer for a later call instead of being extracted in the same call. -/
theorem claim3_counterexample :
    processSP (([86, 9, 49, 13, 10] ++ checksumLabel ++ [9, 99]) ++
        ([73, 9, 51, 13, 10] ++ checksumLabel ++ [9, 40])) [] =
      (some [], [73, 9, 51, 13, 10] ++ checksumLabel ++ [9, 40]) := by
  decide

/-- C3 (amended): when a complete candidate block with a failed checksum is
present, the parser removes exactly that candidate block's bytes from the
buffer (they are never re-examined) but then ends the extraction loop for
this call after the bounded-discard check; a valid block already buffered
after the invalid one is extracted only by a later feed call, not in the
same call (stated for a valid later block that decodes to a non-empty dict,
so that Python truthiness reports it). -/
theorem claim3_theorem {bodyB bodyG : List Nat} {ckB ckG : Nat}
    (hfindB : findLabel (bodyB ++ checksumLabel ++ [9, ckB]) = some bodyB.length)
    (hsumB : ¬ ((bodyB ++ checksumLabel ++ [9, ckB]).sum % 256 = 0))
    (hfindG : findLabel (bodyG ++ checksumLabel ++ [9, ckG]) = some bodyG.length)
    (hsumG : (bodyG ++ checksumLabel ++ [9, ckG]).sum % 256 = 0)
    (hlenG : (bodyG ++ checksumLabel ++ [9, ckG]).length < 1024)
    (hbG : parseBlockSP bodyG ≠ []) :
    processSP ((bodyB ++ checksumLabel ++ [9, ckB]) ++
        (bodyG ++ checksumLabel ++ [9, ckG])) [] =
      (some [], bodyG ++ checksumLabel ++ [9, ckG]) ∧
    processSP [10] (bodyG ++ checksumLabel ++ [9, ckG]) =
      (some [parsedOf (bodyG ++ checksumLabel ++ [9, ckG])], [10]) := by
  constructor
  · have hne : (bodyB ++ checksumLabel ++ [9, ckB]) ++
        (bodyG ++ checksumLabel ++ [9, ckG]) ≠ [] := by
      intro he
      rcases List.append_eq_nil.mp he with ⟨h1, -⟩
      exact goodBlock_ne_nil h1
    rw [processSP_eq_loop hne, List.nil_append]
    rw [processLoopSP_bad (frame_append_bad hfindB hsumB _)]
    unfold checkDiscard
    rw [if_neg (by omega)]
  · rw [processSP_eq_loop (by intro he; cases he)]
    rw [processLoopSP_good (frame_append_good hfindG hsumG [10]) hbG]
    rw [show processLoopSP [10] = (([] : List Block), [10]) from rfl]
    rw [parsedOf_eq]

/-- C3 witness: a corrupt `V\t1\r\n` block followed by a valid `I\t3\r\n`
block. -/
theorem claim3_witness :
    processSP (([86, 9, 49, 13, 10] ++ checksumLabel ++ [9, 99]) ++
        ([73, 9, 51, 13, 10] ++ checksumLabel ++ [9, 40])) [] =
      (some [], [73, 9, 51, 13, 10] ++ checksumLabel ++ [9, 40]) ∧
    processSP [10] ([73, 9, 51, 13, 10] ++ checksumLabel ++ [9, 40]) =
      (some [parsedOf ([73, 9, 51, 13, 10] ++ checksumLabel ++ [9, 40])], [10]) :=
  claim3_theorem (by decide) (by decide) (by decide) (by decide) (by decide) (by decide)

/-- C4 counterexample: (a) a single 3000-byte label-free feed call leaves
1976 bytes in the buffer, exceeding the 1024-byte maximum, because the
discard drops only the oldest 1024 bytes; (b) a feed call whose data ends in
a label with no complete block (label found at 1020, block incomplete) still
triggers the bounded discard, leaving 4 of its 1028 bytes. -/
theorem claim4_counterexample :
    (processSP (List.replicate 3000 97) []).2.length = 1976 ∧
    findLabel (List.replicate 1020 97 ++ checksumLabel) = some 1020 ∧
    (processSP (List.replicate 1020 97 ++ checksumLabel) []).2.length = 4 := by
  have hf3000 : findLabel (List.replicate 3000 97) = none := by
    rw [show (List.replicate 3000 97 : List Nat) = List.replicate 3000 97 ++ [] by
      rw [List.append_nil]]
    rw [findLabel_replicate_append (by decide) 3000 []]
    rfl
  have hfD : findLabel (List.replicate 1020 97 ++ checksumLabel) = some 1020 := by
    rw [findLabel_replicate_append (by decide) 1020 checksumLabel]
    rfl
  have hlen3000 : (List.replicate 3000 (97 : Nat)).length = 3000 :=
    List.length_replicate 3000 97
  have hlenD : (List.replicate 1020 97 ++ checksumLabel).length = 1028 := by
    rw [List.length_append, List.length_replicate]
    rfl
  refine ⟨?_, hfD, ?_⟩
  · have hne : (List.replicate 3000 (97 : Nat)) ≠ [] := by decide
    have hframe : frame (List.replicate 3000 (97 : Nat)) = .need := by
      unfold frame
      simp only [hf3000]
    rw [processSP_eq_loop hne, List.nil_append, processLoopSP_need hframe]
    dsimp only
    unfold checkDiscard
    rw [if_pos (by omega)]
    rw [List.length_drop]
    omega
  · have hne : (List.replicate 1020 97 ++ checksumLabel) ≠ [] := by decide
    have hframe : frame (List.replicate 1020 97 ++ checksumLabel) = .need := by
      unfold frame
      simp only [hfD]
      rw [if_pos (by omega)]
    rw [processSP_eq_loop hne, List.nil_append, processLoopSP_need hframe]
    dsimp only
    unfold checkDiscard
    rw [if_pos (by omega)]
    rw [List.length_drop]
    omega

/-- C4 (amended): for every sequence of feed calls each of at most 1024
bytes whose concatenated bytes contain no occurrence of the checksum label,
the internal buffer stays below the 1024-byte maximum after every feed call
returns (the state after any prefix of the calls).  Without the per-call
size bound, and with the discard restricted to the no-label case, the claim
fails — see the counterexample. -/
theorem claim4_theorem (cs : List (List Nat)) (hsize : ∀ c ∈ cs, c.length ≤ 1024)
    (hnl : findLabel cs.flatten = none) (k : Nat) :
    ((feedAllSP (cs.take k) []).2).length < 1024 := by
  apply feedAllSP_no_label_bound
  · exact fun c hc => hsize c (List.take_subset k cs hc)
  · rw [List.nil_append]
    intro p hp
    have hall := findLabel_eq_none_iff.mp hnl
    apply hall p
    have hflat : cs.flatten = (cs.take k).flatten ++ (cs.drop k).flatten := by
      rw [← List.flatten_append, List.take_append_drop]
    rw [hflat]
    exact occ_append_left hp
  · decide

/-- C4 witness: two small label-free chunks, checked after both calls. -/
theorem claim4_witness :
    ((feedAllSP ([[97], [98, 99]].take 2) []).2).length < 1024 :=
  claim4_theorem [[97], [98, 99]] (by decide) (by decide) 2

/-- C5: feeding the checksum-valid block `V\tabc\r\nChecksum\t\x28` raises
`ValueError` out of `BlockReader.read` — `int("abc")` raises and
`_parse_line_ex` catches only `KeyError`, so the feed call does not return
normally, contradicting the claim; the spec's stated intent (decode errors
handled inside the parser) marks this as a code bug. -/
theorem claim5_theorem :
    readB ([86, 9, 97, 98, 99, 13, 10] ++ checksumLabel ++ [9, 40]) initBR =
      .error .valueError := by
  decide

/-- C6 counterexample: after a valid block sets voltage to 5, a second valid
block that omits `V` (its only line is `I\t3`) leaves voltage at 5, not at
the default 0 — the snapshot is not assembled fresh per block. -/
theorem claim6_counterexample :
    (∀ l ∈ splitlines [73, 9, 51, 13, 10], lineKeyIsNot "V" l = true) ∧
    ((readB ([86, 9, 53, 13, 10] ++ checksumLabel ++ [9, 25]) initBR).bind
        (fun p => readB ([73, 9, 51, 13, 10] ++ checksumLabel ++ [9, 40]) p.2)).map
      (fun p => p.2.values.voltage) = .ok 5 := by
  decide

/-- C6 (amended): `BlockReader` accumulates decoded fields into the single
`MonitorData` created in `__init__`: a checksum-valid block none of whose
lines carries the code `V` leaves the previously decoded voltage unchanged
(rather than resetting it to the default 0). -/
theorem claim6_theorem {body : List Nat} {ck : Nat} {d dv : MonitorData}
    (hfind : findLabel (body ++ checksumLabel ++ [9, ck]) = some body.length)
    (hsum : (body ++ checksumLabel ++ [9, ck]).sum % 256 = 0)
    (hnoV : ∀ l ∈ splitlines body, lineKeyIsNot "V" l = true)
    (hp : parseBlockBR d body = .ok dv) :
    readB (body ++ checksumLabel ++ [9, ck]) ⟨[], d⟩ = .ok (1, ⟨[], dv⟩) ∧
      dv.voltage = d.voltage :=
  ⟨readB_single_good hfind hsum hp,
    parseBlockBR_voltage (splitlines body) d dv hnoV hp⟩

/-- C6 witness: the `I\t3\r\n` block fed to a reader whose record holds
voltage 5. -/
theorem claim6_witness :
    readB ([73, 9, 51, 13, 10] ++ checksumLabel ++ [9, 40])
        ⟨[], { voltage := 5 }⟩ = .ok (1, ⟨[], { voltage := 5, current := 3 }⟩) ∧
      ({ voltage := 5, current := 3 } : MonitorData).voltage =
        ({ voltage := 5 } : MonitorData).voltage :=
  claim6_theorem (by decide) (by decide) (by decide) (by decide)

/-- C7 counterexample: a checksum-valid block whose only line is `XX\t5`
(an unknown code) leaves `BlockReader`'s record exactly at the
default-constructed `MonitorData` — the raw value "5" is dropped, not
preserved. -/
theorem claim7_counterexample :
    (readB ([88, 88, 9, 53, 13, 10] ++ checksumLabel ++ [9, 191]) initBR).map
      (fun p => (p.1, p.2.values)) = .ok (1, ({} : MonitorData)) := by
  decide

/-- C7 (amended): the dict-based `StreamParser` preserves unknown codes: for
every checksum-valid block containing a well-formed `code\tvalue` line (with
no later line carrying the same code), the decoded record contains the raw
string value unmodified under the raw code name — whereas the typed
`BlockReader` drops unknown codes (see the counterexample). -/
theorem claim7_theorem {body lv kb vb : List Nat} {ck : Nat}
    {pre post : List (List Nat)} {code value : String}
    (hfind : findLabel (body ++ checksumLabel ++ [9, ck]) = some body.length)
    (hsum : (body ++ checksumLabel ++ [9, ck]).sum % 256 = 0)
    (hlines : splitlines body = pre ++ lv :: post)
    (hlv : splitTab lv = [kb, vb])
    (hkb : decodeAscii kb = code) (hvb : decodeAscii vb = value)
    (hpost : ∀ l ∈ post, lineKeyIsNot code l = true) :
    processSP (body ++ checksumLabel ++ [9, ck]) [] =
      (some [parseBlockSP body], []) ∧
    (parseBlockSP body).lookup code = some value := by
  have h2 : (parseBlockSP body).lookup code = some value := by
    unfold parseBlockSP
    rw [hlines, List.foldl_append, List.foldl_cons]
    rw [foldl_stepSP_lookup_ne post _ hpost]
    exact stepSP_lookup_set hlv hkb hvb _
  have hb : parseBlockSP body ≠ [] := by
    intro he
    rw [he] at h2
    exact Option.noConfusion h2
  exact ⟨processSP_single hfind hsum hb, h2⟩

/-- C7 witness: the unknown-code block `XX\t5\r\nChecksum\t\xbf` in the
dict parser. -/
theorem claim7_witness :
    processSP ([88, 88, 9, 53, 13, 10] ++ checksumLabel ++ [9, 191]) [] =
      (some [parseBlockSP [88, 88, 9, 53, 13, 10]], []) ∧
    (parseBlockSP [88, 88, 9, 53, 13, 10]).lookup "XX" = some "5" :=
  @claim7_theorem [88, 88, 9, 53, 13, 10] [88, 88, 9, 53] [88, 88] [53] 191 [] [] "XX" "5"
    (by decide) (by decide) (by decide) (by decide) (by decide) (by decide) (by decide)

/-- C8 counterexample: the decoder maps "3" to the uppercase member names
joined by a pipe, not to the lowercase label the claim states. -/
theorem claim8_counterexample :
    value_as_alarm_str "3" ≠ .ok "low_voltage|high_voltage" := by
  decide

/-- C8 (amended): the bitmask-label decoder maps "3" to
"LOW_VOLTAGE|HIGH_VOLTAGE" (the uppercase `AlarmReason` member names joined
in ascending bit order), and a zero or absent raw value to the sentinel
"NONE"; further values confirm the ascending-bit-order join. -/
theorem claim8_theorem :
    value_as_alarm_str "3" = .ok "LOW_VOLTAGE|HIGH_VOLTAGE" ∧
    value_as_alarm_str "0" = .ok "NONE" ∧
    value_as_alarm_str "" = .ok "NONE" ∧
    value_as_alarm_str "5" = .ok "LOW_VOLTAGE|LOW_STATE_OF_CHARGE" ∧
    value_as_alarm_str "7" = .ok "LOW_VOLTAGE|HIGH_VOLTAGE|LOW_STATE_OF_CHARGE" := by
  decide

/-- C9 counterexample: `__init__` stores the `threading.Lock` factory itself
in `self._lock`, so `with self._lock:` raises `TypeError`: before any
publish, reading the snapshot provider raises instead of returning any
value, let alone a distinguishable explicit empty/unset one; and the record
stored before any publish is the default-constructed `MonitorData`,
indistinguishable from an all-defaults snapshot. -/
theorem claim9_counterexample :
    copy_current_data serialThreadLock serialThreadInitData = .error .typeError ∧
    serialThreadInitData =
      MonitorData.mk 0 0 0 0 0 false false "" "" "" 0 0 0 0 0 0 0 0 0 0 0 0 := by
  decide

/-- C9 (amended): every read through `copy_current_data` raises `TypeError`,
because `self._lock` holds the `threading.Lock` factory, which does not
support the context manager protocol; so no snapshot is returned before (or
after) any publish.  With a working lock the copy would be field-for-field
faithful, and the record stored before any publish is the
default-constructed `MonitorData`, so the copy would equal the all-defaults
record: no explicit empty/unset sentinel exists either way. -/
theorem claim9_theorem :
    (∀ d : MonitorData, copy_current_data serialThreadLock d = .error .typeError) ∧
    (∀ d : MonitorData, copy_current_data LockAttr.lockObject d = .ok d) ∧
    serialThreadInitData =
      MonitorData.mk 0 0 0 0 0 false false "" "" "" 0 0 0 0 0 0 0 0 0 0 0 0 :=
  ⟨fun _ => rfl, fun _ => rfl, rfl⟩

/-- C9 witness: a concrete stored record is never returned — the read
raises `TypeError`; with a real lock the copy would be faithful. -/
theorem claim9_witness :
    copy_current_data serialThreadLock { voltage := 7 } = .error .typeError ∧
    copy_current_data LockAttr.lockObject { voltage := 7 } =
      .ok ({ voltage := 7 } : MonitorData) ∧
    serialThreadInitData =
      MonitorData.mk 0 0 0 0 0 false false "" "" "" 0 0 0 0 0 0 0 0 0 0 0 0 :=
  ⟨claim9_theorem.1 { voltage := 7 }, claim9_theorem.2.1 { voltage := 7 },
    claim9_theorem.2.2⟩

/-- C10: `StreamParser.process` returns `None` (not an empty list) on empty
input, leaving the buffer unchanged, and returns `some` list (possibly
empty) for every non-empty input. -/
theorem claim10_theorem :
    (∀ buf : List Nat, processSP [] buf = (none, buf)) ∧
    (∀ data buf : List Nat, data ≠ [] →
      ∃ bs, (processSP data buf).1 = some bs) := by
  constructor
  · intro buf
    rfl
  · intro data buf h
    refine ⟨(processLoopSP (buf ++ data)).1, ?_⟩
    rw [processSP_eq_loop h]

/-- C10 witness: empty input on a non-empty buffer, and a one-byte input. -/
theorem claim10_witness :
    processSP [] [5] = (none, [5]) ∧ ∃ bs, (processSP [1] []).1 = some bs :=
  ⟨claim10_theorem.1 [5], claim10_theorem.2 [1] [] (by decide)⟩

end Bmvd
